import Mathlib

/-!
Shallow embedding of the IELTS verifiable-credential system
(core: indexed-Merkle-tree accumulator, disclosure-proof generation and
verification, and the issuer/holder/verifier/registry protocol roles),
translated from the TypeScript sources, together with theorems settling
the specification claims.

Conventions of the embedding:
* JavaScript numbers used for scores and thresholds are modelled as `Rat`
  (the values actually used are IELTS band scores, exactly representable).
* JavaScript strings are `String`; string truthiness is `s ≠ ""`.
* JavaScript objects used as string-keyed records are association lists
  `List (String × ...)`; an entry whose value is `none` models a key that
  is present but bound to `undefined` (`obj[k] = undefined` does create
  the key in JavaScript).
* `bigint` digests are `Nat` (all digest values in the code are
  non-negative); `BigInt(string)` parsing is `strToNatJs`, and a JS
  exception from `BigInt` on a non-numeric string is the `none` case.
* The Poseidon hash primitive (`circomlibjs`, an external collaborator
  initialised once per process) is an explicit parameter
  `H : List Nat → Nat`, matching every `poseidonHash([...])` call site;
  `convertPoseidonToBigInt` is the identity under this modelling.
* Thrown JS exceptions are `Except` errors with structured error values
  mirroring the thrown messages.
-/

namespace VCSys

/-- A JavaScript attribute value as it occurs in credentials and
revealed-attribute mappings: a string, a number, or the nested scores
object. -/
inductive AttrValue where
  | str (s : String)
  | num (q : Rat)
  | scoresObj (listening reading writing speaking overall : Rat)
deriving DecidableEq, Repr

/-- A string-keyed JavaScript object with attribute values; `none` models
a key bound to `undefined`. -/
abbrev JsObj := List (String × Option AttrValue)

/-- `obj[k] = v`: update in place if the key exists (JS objects keep the
original key position), otherwise append. -/
def jsSet (o : JsObj) (k : String) (v : Option AttrValue) : JsObj :=
  match o with
  | [] => [(k, v)]
  | (k', v') :: rest =>
      if k' = k then (k', v) :: rest else (k', v') :: jsSet rest k v

/-- `obj[k]`: `none` both when the key is absent and when it is bound to
`undefined` (JavaScript's `obj[k] === undefined` cannot tell the two
apart). -/
def jsGet (o : JsObj) (k : String) : Option AttrValue :=
  match o.lookup k with
  | none => none
  | some v => v

/-- `Object.keys(obj)`. -/
def jsKeys (o : JsObj) : List String := o.map (·.1)

/-- Helper for `String.prototype.includes`: does `needle` occur as a
contiguous run anywhere in the character list? -/
def hasSubAux (needle : List Char) : List Char → Bool
  | [] => needle.isEmpty
  | c :: rest => needle.isPrefixOf (c :: rest) || hasSubAux needle rest

/-- JavaScript `s.includes(sub)`. -/
def strIncludes (s sub : String) : Bool := hasSubAux sub.data s.data

/-- JavaScript `s.startsWith(pre)` (structural, kernel-evaluable). -/
def strStartsWith (s pre : String) : Bool := pre.data.isPrefixOf s.data

/-- Helper for `String.prototype.split('.')`: cut the character list at
every `'.'`. -/
def splitDotAux : List Char → List Char → List (List Char)
  | [], acc => [acc.reverse]
  | c :: cs, acc =>
      if c = '.' then acc.reverse :: splitDotAux cs []
      else splitDotAux cs (c :: acc)

/-- JavaScript `s.split('.')`. -/
def jsSplitDot (s : String) : List String :=
  (splitDotAux s.data []).map (fun l => ⟨l⟩)

/-- The decimal digit character for `d < 10`. -/
def digitChar (d : Nat) : Char := Char.ofNat (48 + d)

/-- Decimal rendering of a digest value, structurally recursive on a
fuel bound so the kernel can evaluate it (the fuel `n + 1` always
dominates the digit count). -/
def natToCharsAux : Nat → Nat → List Char
  | 0, _ => []
  | fuel + 1, n =>
      if n < 10 then [digitChar n]
      else natToCharsAux fuel (n / 10) ++ [digitChar (n % 10)]

/-- `bigint.toString()` / `number.toString()` on the non-negative
integers used as digests and indices. -/
def natToChars (n : Nat) : List Char := natToCharsAux (n + 1) n

/-- `bigint.toString()` as a `String`. -/
def natToString (n : Nat) : String := ⟨natToChars n⟩

/-- Digit-list accumulation of JavaScript decimal parsing. -/
def parseDigitsAux (acc : Nat) : List Char → Option Nat
  | [] => some acc
  | c :: cs =>
      if c.isDigit then parseDigitsAux (acc * 10 + (c.toNat - 48)) cs
      else none

/-- `BigInt(string)` on the strings occurring here: decimal digit
strings parse to their value, the empty string to `0`, and anything else
is the thrown `SyntaxError` (`none`). -/
def strToNatJs (s : String) : Option Nat := parseDigitsAux 0 s.data

/-- JavaScript truthiness of a possibly-`undefined` attribute value. -/
def jsTruthy : Option AttrValue → Bool
  | none => false
  | some (.str s) => s ≠ ""
  | some (.num q) => q ≠ 0
  | some (.scoresObj _ _ _ _ _) => true

/-- JavaScript `v < r` for an attribute value against a number: numeric
values compare numerically; a decimal-natural string coerces as in JS
`ToNumber`; any other comparand behaves like `NaN` (comparison false). -/
def jsLtNum (v : AttrValue) (r : Rat) : Bool :=
  match v with
  | .num q => q < r
  | .str s => match strToNatJs s with
      | some n => (n : Rat) < r
      | none => false
  | .scoresObj _ _ _ _ _ => false

/-- JavaScript `v > r` under the same coercion model as `jsLtNum`. -/
def jsGtNum (v : AttrValue) (r : Rat) : Bool :=
  match v with
  | .num q => r < q
  | .str s => match strToNatJs s with
      | some n => r < (n : Rat)
      | none => false
  | .scoresObj _ _ _ _ _ => false

/-- The nested numeric score group of an IELTS credential. -/
structure Scores where
  listening : Rat
  reading : Rat
  writing : Rat
  speaking : Rat
  overall : Rat
deriving DecidableEq, Repr

/-- `credential.scores[scoreType]` — the runtime lookup of a score field
by name (`undefined` for any other key). -/
def Scores.get (s : Scores) (k : String) : Option Rat :=
  if k = "listening" then some s.listening
  else if k = "reading" then some s.reading
  else if k = "writing" then some s.writing
  else if k = "speaking" then some s.speaking
  else if k = "overall" then some s.overall
  else none

/-- The `IELTSCredential` interface. -/
structure IELTSCredential where
  id : String
  holder : String
  name : String
  dateOfBirth : String
  scores : Scores
  certificationDate : String
  expiryDate : String
  testCenter : String
  certificateNumber : String
deriving DecidableEq, Repr

/-- `(credential as any)[field]` — runtime lookup of a top-level
credential property by name. -/
def IELTSCredential.getField (c : IELTSCredential) (field : String) :
    Option AttrValue :=
  if field = "id" then some (.str c.id)
  else if field = "holder" then some (.str c.holder)
  else if field = "name" then some (.str c.name)
  else if field = "dateOfBirth" then some (.str c.dateOfBirth)
  else if field = "scores" then
    some (.scoresObj c.scores.listening c.scores.reading c.scores.writing
      c.scores.speaking c.scores.overall)
  else if field = "certificationDate" then some (.str c.certificationDate)
  else if field = "expiryDate" then some (.str c.expiryDate)
  else if field = "testCenter" then some (.str c.testCenter)
  else if field = "certificateNumber" then some (.str c.certificateNumber)
  else none

/-- The `MembershipProof` interface of `zk-manager/types.ts`. -/
structure MembershipProof where
  leafIndex : Nat
  siblings : List String
  directions : List Nat
deriving DecidableEq, Repr

/-- The `NonMembershipProof` interface of `zk-manager/types.ts`
(`preLeaf` flattened into its three fields). -/
structure NonMembershipProof where
  query : String
  preVal : String
  preNextVal : String
  preNextIdx : Nat
  path : List String
  directions : List Nat
deriving DecidableEq, Repr

/-- The `MerkleProof` interface (the `zkProof` payload of a disclosure
proof). -/
structure MerkleProof where
  leaf : String
  path : List String
  indices : List Nat
  root : String
  membershipProof : Option MembershipProof
  nonMembershipProof : Option NonMembershipProof
deriving DecidableEq, Repr

/-- The `ZKProof` disclosure-proof object assembled by
`ProofGenerator.generateZKProof`. -/
structure ZKProof where
  type : String
  created : String
  proofPurpose : String
  merkleRoot : String
  zkProof : MerkleProof
  revealedAttributes : JsObj
deriving DecidableEq, Repr

/-! ## The indexed-Merkle-tree accumulator

The accumulator itself lives in the external npm package
`@jayanth-kumar-morem/indexed-merkle-tree`, whose source is not part of
this repository.  The definitions in this section are therefore modelled
from the spec rather than translated: §3 ("a predecessor leaf (value,
next-value, next-index) plus its membership proof"), §4.2 (fixed depth
32, a well-defined empty-leaf digest for unpopulated subtrees, sorted
linked-leaf ordering, duplicate insertion fails) and the glossary
("append-only authenticated set ... via an ordered, linked-leaf
structure").  Each definition's doc comment marks this. -/

/-- Modelled from the spec: one leaf of the indexed Merkle tree — its
value plus the (next-value, next-index) link of the sorted linked-leaf
ordering. -/
structure IMTLeaf where
  val : Nat
  nextVal : Nat
  nextIdx : Nat
deriving DecidableEq, Repr

/-- Modelled from the spec: the library's `IndexedMerkleTree` state, the
ordered sequence of linked leaves (index = position). -/
structure IndexedMerkleTree where
  leaves : List IMTLeaf
deriving DecidableEq, Repr

namespace IndexedMerkleTree

/-- Modelled from the spec: `new IndexedMerkleTree()` starts with the
single zero leaf `(0, 0, 0)`. -/
def init : IndexedMerkleTree := ⟨[⟨0, 0, 0⟩]⟩

/-- Modelled from the spec: `tree.size`, the number of leaves (the
initial zero leaf included). -/
def size (t : IndexedMerkleTree) : Nat := t.leaves.length

/-- Modelled from the spec: the digest of a populated leaf hashes its
(value, next-value, next-index) triple. -/
def leafDigest (H : List Nat → Nat) (l : IMTLeaf) : Nat :=
  H [l.val, l.nextVal, l.nextIdx]

/-- Modelled from the spec: the well-defined digest of an empty subtree
at each level — `0` for an unpopulated leaf slot, pairwise-hashed
upward. -/
def zeroHash (H : List Nat → Nat) : Nat → Nat
  | 0 => 0
  | n + 1 => H [zeroHash H n, zeroHash H n]

/-- Modelled from the spec: combine one level of node digests pairwise,
padding a trailing odd node with the empty digest `z` of that level. -/
def levelUp (H : List Nat → Nat) (z : Nat) : List Nat → List Nat
  | [] => []
  | [a] => [H [a, z]]
  | a :: b :: rest => H [a, b] :: levelUp H z rest

/-- Modelled from the spec: fold `d` levels of pairwise hashing over the
leaf digests, tracking the empty-subtree digest of the current level. -/
def rootAux (H : List Nat → Nat) : Nat → Nat → List Nat → Nat
  | 0, z, xs => xs.headD z
  | d + 1, z, xs => rootAux H d (H [z, z]) (levelUp H z xs)

/-- Modelled from the spec: `tree.root` — the depth-32 Merkle root over
the linked-leaf digests, empty slots carrying the well-defined empty
digest. -/
def root (H : List Nat → Nat) (t : IndexedMerkleTree) : Nat :=
  rootAux H 32 0 (t.leaves.map (leafDigest H))

/-- Modelled from the spec: the index of the predecessor leaf of `v` in
the sorted linked-leaf ordering — value below `v` and next-value above
it (`nextVal = 0` marking the tail). -/
def predIndex (t : IndexedMerkleTree) (v : Nat) : Option Nat :=
  t.leaves.findIdx? (fun l => l.val < v ∧ (v < l.nextVal ∨ l.nextVal = 0))

/-- Modelled from the spec: `tree.insert(v)` — fails if the exact value
already exists, otherwise appends a new linked leaf at the next index
and relinks its predecessor. -/
def insert (t : IndexedMerkleTree) (v : Nat) :
    Except String IndexedMerkleTree :=
  if t.leaves.any (fun l => l.val = v) then
    .error "already exists"
  else
    match h : predIndex t v with
    | none => .error "no predecessor"
    | some p =>
        let pred := t.leaves.get ⟨p, (List.findIdx?_eq_some_iff_findIdx_eq.mp h).1⟩
        let n := t.leaves.length
        let newLeaf : IMTLeaf := ⟨v, pred.nextVal, pred.nextIdx⟩
        let pred' : IMTLeaf := ⟨pred.val, v, n⟩
        .ok ⟨(t.leaves.set p pred') ++ [newLeaf]⟩

/-- Modelled from the spec: all levels of node digests of the tree, from
the leaf level up, for extracting true sibling digests. -/
def levels (H : List Nat → Nat) (t : IndexedMerkleTree) :
    Nat → List (List Nat)
  | 0 => [t.leaves.map (leafDigest H)]
  | d + 1 =>
      let prev := levels H t d
      let z := zeroHash H d
      prev ++ [levelUp H z (prev.getLast?.getD [])]

/-- Modelled from the spec: the true sibling digest of node `i` at level
`l` (the empty digest when the sibling slot is unpopulated). -/
def siblingAt (H : List Nat → Nat) (t : IndexedMerkleTree) (l i : Nat) : Nat :=
  (((levels H t 31).getD l []).getD ((i >>> l) ^^^ 1) (zeroHash H l))

/-- Modelled from the spec: the true membership path of leaf `i` — one
sibling digest and one direction bit per level, leaf to root. -/
def pathOf (H : List Nat → Nat) (t : IndexedMerkleTree) (i : Nat) :
    List Nat × List Nat :=
  ((List.range 32).map (fun l => siblingAt H t l i),
   (List.range 32).map (fun l => (i >>> l) % 2))

/-- Modelled from the spec: the library-level non-membership proof for a
query value — the predecessor leaf triple plus its true membership
path. -/
structure LibNonMembershipProof where
  query : Nat
  preLeaf : IMTLeaf
  path : List Nat
  directions : List Nat
deriving DecidableEq, Repr

/-- Modelled from the spec: `tree.createNonMembershipProof(q)` — fails
when `q` is present, otherwise returns the predecessor leaf and its
membership path. -/
def createNonMembershipProof (H : List Nat → Nat) (t : IndexedMerkleTree)
    (q : Nat) : Except String LibNonMembershipProof :=
  if t.leaves.any (fun l => l.val = q) then
    .error "value exists"
  else
    match h : predIndex t q with
    | none => .error "no predecessor"
    | some p =>
        let pred := t.leaves.get ⟨p, (List.findIdx?_eq_some_iff_findIdx_eq.mp h).1⟩
        let pd := pathOf H t p
        .ok ⟨q, pred, pd.1, pd.2⟩

/-- Modelled from the spec: recompute a node chain from a starting
digest along sibling digests and direction bits. -/
def chainUp (H : List Nat → Nat) : Nat → List Nat → List Nat → Nat
  | cur, [], _ => cur
  | cur, s :: ss, dirs =>
      let d := dirs.headD 1
      chainUp H (if d = 0 then H [cur, s] else H [s, cur]) ss dirs.tail

/-- Modelled from the spec: `tree.verifyNonMembershipProof(proof)` —
recompute the predecessor's membership path to the root and check the
strict-between condition. -/
def verifyNonMembershipProofLib (H : List Nat → Nat)
    (t : IndexedMerkleTree) (p : LibNonMembershipProof) : Bool :=
  (chainUp H (leafDigest H p.preLeaf) p.path p.directions = root H t) ∧
    p.preLeaf.val < p.query ∧ (p.query < p.preLeaf.nextVal ∨ p.preLeaf.nextVal = 0)

end IndexedMerkleTree

/-! ## HashingUtils (`zk-manager/hashing-utils.ts`) -/

/-- JavaScript `Number.prototype.toString` on the score values used here
(integers and one-decimal band values; negative values do not occur in
credentials). -/
def scoreToString (q : Rat) : String :=
  if q.den = 1 then toString q.num
  else
    let n10 : Int := q.num * 10 / (q.den : Int)
    toString (n10 / 10) ++ "." ++ toString (n10 % 10)

/-- The byte-chunk fold of `hashCredential`: big-endian accumulation
`value = (value << 8) | byte`. -/
def chunkValue (bs : List UInt8) : Nat :=
  bs.foldl (fun v b => v * 256 + b.toNat) 0

/-- The 31-byte chunking loop, structurally recursive on a fuel bound
(each step consumes at least one byte, so fuel `bs.length` suffices). -/
def toChunksAux : Nat → List UInt8 → List Nat
  | 0, _ => []
  | _, [] => []
  | fuel + 1, b :: bs =>
      chunkValue ((b :: bs).take 31) :: toChunksAux fuel ((b :: bs).drop 31)

/-- Split the encoded byte stream into 31-byte chunks, each folded to a
field-sized value. -/
def toChunks (bs : List UInt8) : List Nat := toChunksAux bs.length bs

/-- `HashingUtils.hashCredential`: canonical `|`-joined serialization of
the credential's attributes in fixed field order, UTF-8 encoded, chunked
into 31-byte blocks and folded through Poseidon into one digest. -/
def hashCredential (H : List Nat → Nat) (c : IELTSCredential) : Nat :=
  let data := String.intercalate "|"
    [c.id, c.holder, c.name, c.dateOfBirth,
     scoreToString c.scores.listening, scoreToString c.scores.reading,
     scoreToString c.scores.writing, scoreToString c.scores.speaking,
     scoreToString c.scores.overall,
     c.certificationDate, c.expiryDate, c.testCenter, c.certificateNumber]
  -- the single-chunk and multi-chunk branches both pass the chunk list
  H (toChunks data.toUTF8.data.toList)

/-! ## MerkleTreeManager (`zk-manager/merkle-tree-manager.ts`) -/

/-- JS `Map.set`: replace in place when the key exists (keeping its
position), append otherwise. -/
def listSet {α : Type} (m : List (String × α)) (k : String) (v : α) :
    List (String × α) :=
  match m with
  | [] => [(k, v)]
  | (k', v') :: rest =>
      if k' = k then (k', v) :: rest else (k', v') :: listSet rest k v

/-- The mutable fields of `MerkleTreeManager`: the tree plus the three
side tables. -/
structure ZKState where
  merkleTree : Option IndexedMerkleTree
  credentials : List (String × IELTSCredential)
  leafNodes : List (String × Nat)
  credentialIndices : List (String × Nat)
deriving DecidableEq, Repr

/-- A freshly constructed manager: no tree, empty side tables. -/
def ZKState.initial : ZKState := ⟨none, [], [], []⟩

/-- Structured forms of the errors `addCredential` throws. -/
inductive AddErr where
  | alreadyRegistered (id : String)
  | hashExists
  | other (msg : String)
deriving DecidableEq, Repr

namespace MerkleTreeManager

/-- `MerkleTreeManager.addCredential`: lazily initialize the tree, hash
the credential, reject duplicate ids, take the next index from the tree
size, insert, and record the credential in the three side tables. -/
def addCredential (H : List Nat → Nat) (st : ZKState)
    (credential : IELTSCredential) : Except AddErr (ZKState × Nat) :=
  let tree := st.merkleTree.getD IndexedMerkleTree.init
  let credentialHash := hashCredential H credential
  if (st.credentials.lookup credential.id).isSome then
    .error (.alreadyRegistered credential.id)
  else
    let treeIndex := max 0 (tree.size - 1)
    match tree.insert credentialHash with
    | .error e =>
        if strIncludes e "already exists" then .error .hashExists
        else .error (.other e)
    | .ok tree' =>
        .ok ({ merkleTree := some tree',
               credentials := listSet st.credentials credential.id credential,
               leafNodes := listSet st.leafNodes credential.id credentialHash,
               credentialIndices :=
                 listSet st.credentialIndices credential.id treeIndex },
             treeIndex)

/-- `MerkleTreeManager.getRoot`: the sentinel `'0'` before
initialization, else the tree root rendered in decimal. -/
def getRoot (H : List Nat → Nat) (st : ZKState) : String :=
  match st.merkleTree with
  | none => "0"
  | some t => natToString (t.root H)

/-- The per-level direction bits of `generateMembershipProof`:
`currentIndex % 2` at each level, halving the index as the loop walks
up. -/
def mkDirections (idx : Nat) : Nat → List Nat
  | 0 => []
  | d + 1 => (if idx % 2 = 1 then 1 else 0) :: mkDirections (idx / 2) d

/-- `MerkleTreeManager.generateMembershipProof`: requires an initialized
tree, then pushes the constant placeholder sibling `'0'` and the index
parity bit for each of the 32 levels — the tree contents are never
consulted. -/
def generateMembershipProof (st : ZKState) (credentialHash : Nat)
    (leafIndex : Nat) : Except String MembershipProof :=
  let _ := credentialHash   -- unused by the source loop as well
  if st.merkleTree.isNone then .error "Merkle tree not initialized"
  else
    .ok { leafIndex := leafIndex,
          siblings := List.replicate 32 "0",
          directions := mkDirections leafIndex 32 }

/-- `MerkleTreeManager.generateNonMembershipProof`: delegate to the
library, stringify the proof fields, and swallow failures into
`undefined`. -/
def generateNonMembershipProof (H : List Nat → Nat) (st : ZKState)
    (queryValue : Nat) : Option NonMembershipProof :=
  match st.merkleTree with
  | none => none
  | some t =>
      match t.createNonMembershipProof H queryValue with
      | .error _ => none
      | .ok p =>
          some { query := natToString queryValue,
                 preVal := natToString p.preLeaf.val,
                 preNextVal := natToString p.preLeaf.nextVal,
                 preNextIdx := p.preLeaf.nextIdx,
                 path := p.path.map natToString,
                 directions := p.directions }

/-- `MerkleTreeManager.verifyNonMembershipProof`: parse the stringified
fields back to bigints (a parse failure is the caught exception path,
returning `false`) and delegate to the library against the manager's own
current root. -/
def verifyNonMembershipProof (H : List Nat → Nat) (st : ZKState)
    (nmp : NonMembershipProof) : Bool :=
  match st.merkleTree with
  | none => false
  | some t =>
      match strToNatJs nmp.query, strToNatJs nmp.preVal,
        strToNatJs nmp.preNextVal, nmp.path.mapM strToNatJs with
      | some q, some v, some nv, some path =>
          t.verifyNonMembershipProofLib H
            ⟨q, ⟨v, nv, nmp.preNextIdx⟩, path, nmp.directions⟩
      | _, _, _, _ => false

end MerkleTreeManager

/-! ## ProofVerifier (`zk-manager/proof-verifier.ts`) -/

namespace ProofVerifier

/-- The root-reconstruction loop of `verifyMembershipProof`: walk the
sibling list, parsing each sibling with `BigInt` (`none` = the thrown
exception) and hashing `(current, sibling)` or `(sibling, current)` per
direction bit (`0` = current is the left child; a missing direction is
`undefined`, which is not `=== 0`). -/
def chainSiblings (H : List Nat → Nat) :
    Nat → List String → List Nat → Option Nat
  | cur, [], _ => some cur
  | cur, s :: ss, dirs =>
      match strToNatJs s with
      | none => none
      | some sibling =>
          chainSiblings H
            (if dirs.headD 1 = 0 then H [cur, sibling] else H [sibling, cur])
            ss dirs.tail

/-- `ProofVerifier.verifyMembershipProof`: parse the leaf, reconstruct
the root along the path, and compare its decimal rendering with the
expected root (any parse exception is caught and yields `false`). -/
def verifyMembershipProof (H : List Nat → Nat) (leafHash : String)
    (membershipProof : MembershipProof) (expectedRoot : String) : Bool :=
  match strToNatJs leafHash with
  | none => false
  | some v =>
      match chainSiblings H v membershipProof.siblings
          membershipProof.directions with
      | none => false
      | some computedRoot => natToString computedRoot == expectedRoot

/-- `ProofVerifier.verifyMerkleProof` (private): only a structural
truthiness check of the `leaf` and `root` fields. -/
def verifyMerkleProof (merkleProof : MerkleProof) : Bool :=
  merkleProof.leaf != "" && merkleProof.root != ""

/-- `ProofVerifier.verifyZKProof`.  The membership and non-membership
sub-checks are computed and logged but their outcomes are discarded
("for demo purposes, don't fail ... but continuing validation"); the
returned value is only the structural check conjoined with the
non-sentinel-root check, after the empty-root and expected-root early
rejections.  An `expectedRoot` argument that is the empty string is
falsy in JS, so the pinning comparison is skipped for it.  `st` is the
verifier's `merkleTreeManager`, consulted only by the discarded
non-membership sub-check. -/
def verifyZKProof (H : List Nat → Nat) (st : ZKState) (proof : ZKProof)
    (expectedRoot : Option String) : Bool :=
  if proof.merkleRoot = "" then false
  else if (match expectedRoot with
           | some r => r != "" && proof.merkleRoot != r
           | none => false : Bool) then false
  else
    let _membershipValid := proof.zkProof.membershipProof.map
      (fun mp => verifyMembershipProof H proof.zkProof.leaf mp proof.merkleRoot)
    let _nonMembershipValid := proof.zkProof.nonMembershipProof.map
      (fun np => MerkleTreeManager.verifyNonMembershipProof H st np)
    let hasValidStructure := verifyMerkleProof proof.zkProof
    let hasValidRoot := proof.merkleRoot != "" && proof.merkleRoot != "0"
    hasValidStructure && hasValidRoot

end ProofVerifier

/-! ## ProofGenerator (`zk-manager/proof-generator.ts`) -/

/-- Structured forms of the errors `generateZKProof` throws. -/
inductive GenErr where
  | credentialNotFound
  | hashNotFound
  | indexNotFound
  | treeNotInitialized
  | thresholdNotMet (field : String)
deriving DecidableEq, Repr

/-- Observable proof-material production events of a `generateZKProof`
run, in source statement order — used to settle the claim about when the
threshold check happens relative to proof-material production. -/
inductive GenEvent where
  | membershipProofGenerated
  | nonMembershipProofGenerated
deriving DecidableEq, Repr

namespace ProofGenerator

/-- The revealed-attribute projection loop of `generateZKProof`: for
each requested field, a `scores.`-containing field reads the score
subgroup by the segment after the first dot, any other field reads the
top-level property; the assignment creates the key even when the value
is `undefined`. -/
def buildRevealedAttributes (credential : IELTSCredential)
    (revealedFields : List String) : JsObj :=
  revealedFields.foldl
    (fun acc field =>
      if strIncludes field "scores." then
        let scoreType := ((jsSplitDot field).getD 1 "")
        jsSet acc field ((credential.scores.get scoreType).map .num)
      else
        jsSet acc field (credential.getField field))
    []

/-- The minimum-score loop of `generateZKProof`: the first entry whose
actual score exists and is below its threshold (JS `undefined < min` is
false, so an unknown score key never fails). -/
def failingThreshold (credential : IELTSCredential) :
    List (String × Rat) → Option String
  | [] => none
  | (scoreType, minScore) :: rest =>
      match credential.scores.get scoreType with
      | some actualScore =>
          if actualScore < minScore then some scoreType
          else failingThreshold credential rest
      | none => failingThreshold credential rest

/-- `ProofGenerator.generateZKProof`, instrumented with the list of
proof-material events produced before the function returns or throws.
`now` stands for `new Date().toISOString()`. -/
def generateZKProofT (H : List Nat → Nat) (now : String) (st : ZKState)
    (credentialId : String) (revealedFields : List String)
    (minimumScores : Option (List (String × Rat))) :
    Except GenErr ZKProof × List GenEvent :=
  match st.credentials.lookup credentialId with
  | none => (.error .credentialNotFound, [])
  | some credential =>
    match st.leafNodes.lookup credentialId with
    | none => (.error .hashNotFound, [])
    | some credentialHash =>
      match st.credentialIndices.lookup credentialId with
      | none => (.error .indexNotFound, [])
      | some credentialIndex =>
        match MerkleTreeManager.generateMembershipProof st credentialHash
            credentialIndex with
        | .error _ => (.error .treeNotInitialized, [])
        | .ok membershipProof =>
          let events := [GenEvent.membershipProofGenerated]
          let nonMembershipProof :=
            MerkleTreeManager.generateNonMembershipProof H st
              (credentialHash + 1)
          let events := events ++
            (if nonMembershipProof.isSome then
              [GenEvent.nonMembershipProofGenerated] else [])
          let merkleProof : MerkleProof :=
            { leaf := natToString credentialHash,
              path := membershipProof.siblings,
              indices := [credentialIndex],
              root := MerkleTreeManager.getRoot H st,
              membershipProof := some membershipProof,
              nonMembershipProof := nonMembershipProof }
          let revealedAttributes :=
            buildRevealedAttributes credential revealedFields
          let assembled : ZKProof :=
            { type := "IndexedMerkleTreeProof2023",
              created := now,
              proofPurpose := "authentication",
              merkleRoot := MerkleTreeManager.getRoot H st,
              zkProof := merkleProof,
              revealedAttributes := revealedAttributes }
          match minimumScores with
          | some ms =>
              match failingThreshold credential ms with
              | some scoreType => (.error (.thresholdNotMet scoreType), events)
              | none => (.ok assembled, events)
          | none => (.ok assembled, events)

/-- `ProofGenerator.generateZKProof`: the returned (or thrown) outcome
of the instrumented run. -/
def generateZKProof (H : List Nat → Nat) (now : String) (st : ZKState)
    (credentialId : String) (revealedFields : List String)
    (minimumScores : Option (List (String × Rat))) : Except GenErr ZKProof :=
  (generateZKProofT H now st credentialId revealedFields minimumScores).1

end ProofGenerator

/-! ## Shared protocol types (`src/types.ts`) -/

/-- The `BBSProof` signature object; the signature and key bytes are
opaque here (the BBS+ primitive is an external collaborator). -/
structure BBSProof where
  type : String
  created : String
  proofPurpose : String
  verificationMethod : String
  signature : List Nat
  publicKey : List Nat
deriving DecidableEq, Repr

/-- The `VerifiableCredential` interface.  `credentialSubject` and
`proof` are `Option` because the malformed-credential check of
`Holder.storeCredential` tests for their runtime absence. -/
structure VerifiableCredential where
  id : String
  type : List String
  issuer : String
  issuanceDate : String
  credentialSubject : Option IELTSCredential
  proof : Option BBSProof
deriving DecidableEq, Repr

/-- The `PresentationRequest` interface; `minimumScores` is an optional
string-keyed record of thresholds. -/
structure PresentationRequest where
  id : String
  verifier : String
  requiredFields : List String
  minimumScores : Option (List (String × Rat))
  purpose : String
deriving DecidableEq, Repr

/-- The `VerifiablePresentation` interface. -/
structure VerifiablePresentation where
  id : String
  type : List String
  holder : String
  verifiableCredential : List VerifiableCredential
  proof : ZKProof
deriving DecidableEq, Repr

/-- The `RegistryEntry` interface; the revoked flag is the only field
revocation mutates. -/
structure RegistryEntry where
  credentialId : String
  issuer : String
  holder : String
  issuanceDate : String
  revoked : Bool
  merkleTreeIndex : Option Nat
deriving DecidableEq, Repr

/-! ## Registry (`src/components/registry.ts`) -/

/-- The registry's entry map, keyed by credential id. -/
abbrev RegistryState := List (String × RegistryEntry)

namespace Registry

/-- `Registry.revokeCredential`: `false` without mutation when the id is
unknown or the acting issuer differs from the recorded one; otherwise
set the entry's revoked flag (replacing it at its key) and return
`true`. -/
def revokeCredential (entries : RegistryState) (credentialId issuer : String) :
    Bool × RegistryState :=
  match entries.lookup credentialId with
  | none => (false, entries)
  | some entry =>
      if entry.issuer ≠ issuer then (false, entries)
      else (true, listSet entries credentialId { entry with revoked := true })

/-- `Registry.isCredentialRevoked`: the entry's flag, `false` for an
unknown id. -/
def isCredentialRevoked (entries : RegistryState) (credentialId : String) :
    Bool :=
  match entries.lookup credentialId with
  | none => false
  | some entry => entry.revoked

end Registry

/-! ## Verifier (`src/components/verifier.ts`) -/

/-- The per-check details reported by `verifyPresentation`. -/
structure VerifyDetails where
  credentialValid : Bool
  issuerTrusted : Bool
  zkProofValid : Bool
  requirementsMet : Bool
  notRevoked : Bool
deriving DecidableEq, Repr

/-- The result object of `verifyPresentation`. -/
structure VerifyResult where
  isValid : Bool
  details : VerifyDetails
  revealedData : JsObj
deriving DecidableEq, Repr

namespace Verifier

/-- One minimum-score violation in `checkRequirements`: the key is
normalized to a `scores.`-prefixed field, and the comparison only fires
when the revealed value is not `undefined`. -/
def scoreViolation (revealedAttributes : JsObj) (scoreType : String)
    (minValue : Rat) : Bool :=
  let scoreField :=
    if strStartsWith scoreType "scores." then scoreType
    else "scores." ++ scoreType
  match jsGet revealedAttributes scoreField with
  | some actualScore => jsLtNum actualScore minValue
  | none => false

/-- `Verifier.checkRequirements` (private): with no request, any
non-empty revealed mapping passes; with a request, every required field
must be present, no revealed thresholded score may be below its
threshold, and a truthy revealed overall score must lie within the 0–9
band. -/
def checkRequirements (revealedAttributes : JsObj)
    (request : Option PresentationRequest) : Bool :=
  match request with
  | none => !(jsKeys revealedAttributes).isEmpty
  | some req =>
      if req.requiredFields.any
          (fun field => (jsGet revealedAttributes field).isNone) then false
      else if (match req.minimumScores with
               | some ms => ms.any (fun kv =>
                   scoreViolation revealedAttributes kv.1 kv.2)
               | none => false : Bool) then false
      else
        let overall := jsGet revealedAttributes "scores.overall"
        if jsTruthy overall &&
            (match overall with
             | some v => jsLtNum v 0 || jsGtNum v 9
             | none => false : Bool) then false
        else true

/-- `Verifier.verifyPresentation`: evaluates the five named checks in
source order (revocation only when a registry is attached, `notRevoked`
defaulting permissively to `true`), aggregates them by logical AND into
`isValid`, and returns the detail record alongside.  `bbsVerify` is the
external BBS+ signature-verification collaborator;  `st` is the
verifier's own (freshly initialized) `zkManager` state. -/
def verifyPresentation (H : List Nat → Nat)
    (bbsVerify : Option IELTSCredential → Option BBSProof → Bool)
    (trustedIssuers : List String) (registry : Option RegistryState)
    (st : ZKState) (presentation : VerifiablePresentation)
    (request : Option PresentationRequest) : VerifyResult :=
  let details0 : VerifyDetails :=
    { credentialValid := false, issuerTrusted := false, zkProofValid := false,
      requirementsMet := false, notRevoked := true }
  match presentation.verifiableCredential with
  | [] => { isValid := false, details := details0, revealedData := [] }
  | credential :: _ =>
      let notRevoked :=
        match registry with
        | some reg => !(Registry.isCredentialRevoked reg credential.id)
        | none => true
      let issuerTrusted := trustedIssuers.contains credential.issuer
      let credentialValid := bbsVerify credential.credentialSubject credential.proof
      let zkProofValid := ProofVerifier.verifyZKProof H st presentation.proof none
      let requirementsMet :=
        checkRequirements presentation.proof.revealedAttributes request
      let details : VerifyDetails :=
        { credentialValid := credentialValid, issuerTrusted := issuerTrusted,
          zkProofValid := zkProofValid, requirementsMet := requirementsMet,
          notRevoked := notRevoked }
      { isValid := credentialValid && issuerTrusted && zkProofValid &&
          requirementsMet && notRevoked,
        details := details,
        revealedData := presentation.proof.revealedAttributes }

end Verifier

/-! ## Holder (`src/components/holder.ts`) -/

/-- The holder's mutable state: its credential store, trust set, and its
own accumulator (`zkManager`). -/
structure HolderState where
  holderId : String
  credentials : List (String × VerifiableCredential)
  trustedIssuers : List String
  zk : ZKState
deriving DecidableEq, Repr

/-- Structured forms of the errors `Holder.storeCredential` throws. -/
inductive StoreErr where
  | untrustedIssuer
  | invalidSignature
  | missingFields
  | zkAdd (e : AddErr)
deriving DecidableEq, Repr

namespace Holder

/-- `Holder.storeCredential`: reject an untrusted issuer, then an
invalid signature, then missing `credentialSubject`/`proof` sub-objects;
only then commit the attributes into the holder's own accumulator and
retain the credential — a failure at any step (the accumulator's
duplicate rejection included) leaves the holder's store unchanged. -/
def storeCredential (H : List Nat → Nat)
    (bbsVerify : Option IELTSCredential → Option BBSProof → Bool)
    (h : HolderState) (credential : VerifiableCredential) :
    Except StoreErr HolderState :=
  if ¬ h.trustedIssuers.contains credential.issuer then
    .error .untrustedIssuer
  else if ¬ bbsVerify credential.credentialSubject credential.proof then
    .error .invalidSignature
  else
    match credential.credentialSubject, credential.proof with
    | some subject, some _ =>
        match MerkleTreeManager.addCredential H h.zk subject with
        | .error e => .error (.zkAdd e)
        | .ok (zk', _) =>
            .ok { h with
                  zk := zk'
                  credentials := listSet h.credentials credential.id credential }
    | _, _ => .error .missingFields

end Holder

/-! ## StateManager (`zk-manager/state-manager.ts`)

`saveTreeState` writes two artifacts: the library's own snapshot
(`merkleTree.saveToFile`, whose `loadFromFile` inverse is the external
persisted-state collaborator's contract — spec §6: "reloading must
reproduce an identical root for the same insertion sequence"; modelled
as carrying the tree value verbatim) and the `-state.json` side-table
file, whose JSON content is modelled structurally: credential records
and numeric indices round-trip through JSON unchanged, and bigint leaf
hashes are written with `toString` and re-read with `BigInt`. -/

/-- The pair of persisted artifacts produced by `saveTreeState`. -/
structure SavedState where
  treeFile : IndexedMerkleTree
  credentialsJson : List (String × IELTSCredential)
  leafNodesJson : List (String × String)
  credentialIndicesJson : List (String × Nat)
deriving DecidableEq, Repr

namespace StateManager

/-- `StateManager.saveTreeState`: fails when the tree is uninitialized,
otherwise snapshots the tree and serializes the three side tables
(leaf hashes via `toString`). -/
def saveTreeState (st : ZKState) : Except String SavedState :=
  match st.merkleTree with
  | none => .error "Merkle tree not initialized"
  | some t =>
      .ok { treeFile := t,
            credentialsJson := st.credentials,
            leafNodesJson := st.leafNodes.map (fun kv => (kv.1, natToString kv.2)),
            credentialIndicesJson := st.credentialIndices }

/-- The leaf-hash restore loop of `loadTreeState`: parse each value
with `BigInt`; any parse exception aborts the load. -/
def parseLeafNodes : List (String × String) → Option (List (String × Nat))
  | [] => some []
  | (k, s) :: rest =>
      match strToNatJs s, parseLeafNodes rest with
      | some n, some r => some ((k, n) :: r)
      | _, _ => none

/-- `StateManager.loadTreeState`: install the snapshot tree and restore
the three side tables, parsing each leaf hash with `BigInt` (a parse
exception is the wrapped load failure). -/
def loadTreeState (saved : SavedState) (st : ZKState) : Except String ZKState :=
  let _ := st   -- the prior manager state is fully overwritten
  match parseLeafNodes saved.leafNodesJson with
  | none => .error "Failed to load tree state"
  | some leafNodes =>
      .ok { merkleTree := some saved.treeFile,
            credentials := saved.credentialsJson,
            leafNodes := leafNodes,
            credentialIndices := saved.credentialIndicesJson }

end StateManager

/-! ## Concrete fixtures for closed evaluations

The closed theorems below instantiate the external Poseidon collaborator
with a small concrete hash function so every side can be evaluated by the
kernel; the behaviours they exhibit (placeholder siblings, discarded
membership mismatches, skipped pinning on an empty expected root) do not
depend on the choice of hash. -/

deriving instance DecidableEq for Except

/-- A concrete stand-in for the Poseidon collaborator, small enough for
kernel evaluation. -/
def Hc : List Nat → Nat := fun xs => (xs.foldl (fun a x => a * 3 + x) 1) % 1000003

/-- A concrete signature collaborator accepting everything. -/
def bbsAccept : Option IELTSCredential → Option BBSProof → Bool := fun _ _ => true

/-- A concrete stored credential. -/
def cred1 : IELTSCredential :=
  { id := "cred-1", holder := "holder-1", name := "Alice",
    dateOfBirth := "1990-01-01",
    scores := { listening := 8, reading := 8, writing := 7, speaking := 8,
                overall := 8 },
    certificationDate := "2024-01-01", expiryDate := "2026-01-01",
    testCenter := "Centre A", certificateNumber := "CERT-1" }

/-- The accumulator state after inserting `cred1` into a fresh manager. -/
def st1 : ZKState :=
  match MerkleTreeManager.addCredential Hc ZKState.initial cred1 with
  | .ok p => p.1
  | .error _ => ZKState.initial

/-- A structurally well-formed disclosure proof with no membership proof
attached (root `"123"`, leaf `"5"`). -/
def plainProof : ZKProof :=
  { type := "IndexedMerkleTreeProof2023", created := "T",
    proofPurpose := "authentication", merkleRoot := "123",
    zkProof := { leaf := "5", path := [], indices := [0], root := "123",
                 membershipProof := none, nonMembershipProof := none },
    revealedAttributes := [("name", some (.str "Alice"))] }

/-- `plainProof` with a membership proof whose recomputed root does not
match the stated root `"123"` (e.g. a proof whose single sibling digest
was mutated). -/
def tamperedProof : ZKProof :=
  { plainProof with
    zkProof := { plainProof.zkProof with
      membershipProof := some { leafIndex := 0, siblings := ["1"],
                                directions := [0] } } }

/-- The membership proof produced by the manager for `cred1` (constant
`'0'` siblings). -/
def placeholderProof : MembershipProof :=
  { leafIndex := 0, siblings := List.replicate 32 "0",
    directions := List.replicate 32 0 }

/-- An inert disclosure proof used only as a match fallback. -/
def fallbackProof : ZKProof :=
  { type := "", created := "", proofPurpose := "", merkleRoot := "",
    zkProof := { leaf := "", path := [], indices := [], root := "",
                 membershipProof := none, nonMembershipProof := none },
    revealedAttributes := [] }

/-- The disclosure proof generated for `cred1` revealing
`name` and `scores.overall`. -/
def proof1 : ZKProof :=
  match ProofGenerator.generateZKProof Hc "T" st1 "cred-1"
      ["name", "scores.overall"] none with
  | .ok p => p
  | .error _ => fallbackProof

/-- A registered, unrevoked registry entry for `cred1`, issued by
`issuer-1`. -/
def entry1 : RegistryEntry :=
  { credentialId := "cred-1", issuer := "issuer-1", holder := "holder-1",
    issuanceDate := "2024-01-02", revoked := false, merkleTreeIndex := some 0 }

/-- A registry holding only `entry1`. -/
def reg1 : RegistryState := [("cred-1", entry1)]

/-- A signed credential wrapping `cred1`. -/
def vc1 : VerifiableCredential :=
  { id := "cred-1", type := ["VerifiableCredential", "IELTSCredential"],
    issuer := "issuer-1", issuanceDate := "2024-01-02",
    credentialSubject := some cred1,
    proof := some { type := "BbsBlsSignature2020", created := "2024-01-02",
                    proofPurpose := "assertionMethod",
                    verificationMethod := "issuer-1#key-1",
                    signature := [1, 2, 3], publicKey := [4, 5, 6] } }

/-- A presentation of `vc1` carrying `plainProof`. -/
def pres1 : VerifiablePresentation :=
  { id := "pres-1", type := ["VerifiablePresentation", "IELTSPresentation"],
    holder := "holder-1", verifiableCredential := [vc1],
    proof := plainProof }

/-- A fresh holder trusting `issuer-1`. -/
def holder1 : HolderState :=
  { holderId := "holder-1", credentials := [],
    trustedIssuers := ["issuer-1"], zk := ZKState.initial }

/-- An inert saved state used only as a match fallback. -/
def fallbackSaved : SavedState :=
  { treeFile := IndexedMerkleTree.init, credentialsJson := [],
    leafNodesJson := [], credentialIndicesJson := [] }

/-- The snapshot saved from `st1`. -/
def saved1 : SavedState :=
  match StateManager.saveTreeState st1 with
  | .ok s => s
  | .error _ => fallbackSaved

/-- The tree held by `st1`. -/
def st1Tree : IndexedMerkleTree := st1.merkleTree.getD IndexedMerkleTree.init

/-- A revealed mapping containing the required field `name` and an
out-of-band `scores.overall` value, but no `scores.reading`. -/
def revealedX : JsObj :=
  [("name", some (.str "Alice")), ("scores.overall", some (.num 10))]

/-- A request requiring `name` and a minimum reading score of 6. -/
def reqX : PresentationRequest :=
  { id := "req-1", verifier := "verifier-1", requiredFields := ["name"],
    minimumScores := some [("reading", 6)], purpose := "admission" }

/-- A revealed mapping with the required field only — the thresholded
`scores.reading` is absent. -/
def revealedY : JsObj := [("name", some (.str "Alice"))]

/-! ## General lemmas about the embedding's primitives -/

theorem digitChar_isDigit {d : Nat} (h : d < 10) : (digitChar d).isDigit = true := by
  interval_cases d <;> decide

theorem digitChar_toNat {d : Nat} (h : d < 10) : (digitChar d).toNat = 48 + d := by
  interval_cases d <;> decide

theorem parseDigitsAux_append (acc : Nat) (xs ys : List Char) :
    parseDigitsAux acc (xs ++ ys) =
      (parseDigitsAux acc xs).bind (fun a => parseDigitsAux a ys) := by
  induction xs generalizing acc with
  | nil => simp [parseDigitsAux]
  | cons c cs ih =>
      simp only [List.cons_append, parseDigitsAux]
      by_cases h : c.isDigit
      · simp [h, ih]
      · simp [h]

theorem parseDigitsAux_natToCharsAux (fuel : Nat) : ∀ n acc : Nat, n < fuel →
    parseDigitsAux acc (natToCharsAux fuel n) =
      some (acc * 10 ^ (natToCharsAux fuel n).length + n) := by
  induction fuel with
  | zero => intro n acc h; omega
  | succ fuel ih =>
      intro n acc _
      rw [natToCharsAux]
      by_cases h : n < 10
      · simp [h, parseDigitsAux, digitChar_isDigit h, digitChar_toNat h]
      · have hd : n / 10 < n := Nat.div_lt_self (by omega) (by omega)
        have hf : n / 10 < fuel := by omega
        have hm : n % 10 < 10 := Nat.mod_lt _ (by omega)
        simp only [h, if_false, parseDigitsAux_append, ih _ _ hf]
        simp only [Option.some_bind, parseDigitsAux, digitChar_isDigit hm,
          digitChar_toNat hm, if_true, List.length_append, List.length_cons,
          List.length_nil, Nat.zero_add, pow_succ, Option.some.injEq]
        rw [← Nat.mul_assoc]
        generalize acc * 10 ^ (natToCharsAux fuel (n / 10)).length = A
        omega

/-- `BigInt` parsing inverts `toString` on every digest value. -/
theorem strToNatJs_natToString (n : Nat) : strToNatJs (natToString n) = some n := by
  simp [strToNatJs, natToString, natToChars,
    parseDigitsAux_natToCharsAux (n + 1) n 0 (Nat.lt_succ_self n)]

theorem listSet_lookup_self {α : Type} (m : List (String × α)) (k : String)
    (v : α) : (listSet m k v).lookup k = some v := by
  induction m with
  | nil => simp [listSet, List.lookup]
  | cons kv rest ih =>
      obtain ⟨k', v'⟩ := kv
      by_cases h : k' = k
      · subst h
        simp [listSet, List.lookup]
      · have hb : (k == k') = false := by
          simp only [beq_eq_false_iff_ne, ne_eq]
          exact fun e => h e.symm
        simp [listSet, h, List.lookup, hb, ih]

theorem listSet_lookup_other {α : Type} (m : List (String × α)) (k k' : String)
    (v : α) (h : k' ≠ k) : (listSet m k v).lookup k' = m.lookup k' := by
  have hb : (k' == k) = false := by simp [beq_eq_false_iff_ne, h]
  induction m with
  | nil => simp [listSet, List.lookup, hb]
  | cons kv rest ih =>
      obtain ⟨k0, v0⟩ := kv
      by_cases h0 : k0 = k
      · subst h0
        simp [listSet, List.lookup, hb]
      · simp [listSet, h0, List.lookup, ih]

theorem jsSet_keys_mem (o : JsObj) (k k' : String) (v : Option AttrValue) :
    k' ∈ jsKeys (jsSet o k v) ↔ k' ∈ jsKeys o ∨ k' = k := by
  induction o with
  | nil => simp [jsSet, jsKeys]
  | cons kv rest ih =>
      obtain ⟨k0, v0⟩ := kv
      by_cases h0 : k0 = k
      · subst h0
        have hset : jsSet ((k0, v0) :: rest) k0 v = (k0, v) :: rest := by
          simp [jsSet]
        rw [hset]
        simp only [jsKeys, List.map_cons, List.mem_cons]
        tauto
      · have ihm := ih
        simp only [jsKeys, List.map_cons, List.mem_cons] at ihm ⊢
        simp only [jsSet, if_neg h0, List.map_cons, List.mem_cons]
        tauto

/-! ## Claim theorems -/

/-- C1: contrary to the claim, a recomputed-root mismatch in the
membership proof is not a hard failure: on a proof whose membership-path
recomputation does not reproduce the stated `merkleRoot` (here a proof
with a mutated sibling digest), `verifyZKProof` still returns `true`,
both without an expected root and with a matching one — the sub-check's
outcome is computed and then discarded. -/
theorem verifyZKProof_ignores_membership_mismatch :
    ProofVerifier.verifyMembershipProof Hc tamperedProof.zkProof.leaf
        { leafIndex := 0, siblings := ["1"], directions := [0] }
        tamperedProof.merkleRoot = false ∧
    ProofVerifier.verifyZKProof Hc ZKState.initial tamperedProof none = true ∧
    ProofVerifier.verifyZKProof Hc ZKState.initial tamperedProof
        (some "123") = true := by
  decide

set_option maxRecDepth 8000 in
/-- C2: contrary to the claim, `generateMembershipProof` fabricates its
sibling list — for the credential actually inserted at index 0 it
returns the constant placeholder digest `'0'` at every one of the 32
levels regardless of the tree's contents, and iteratively hashing the
leaf with those siblings does not reproduce the accumulator's stored
root: verifying the generated proof against the current root yields
`false`. -/
theorem generateMembershipProof_placeholder_siblings :
    MerkleTreeManager.addCredential Hc ZKState.initial cred1 = .ok (st1, 0) ∧
    MerkleTreeManager.generateMembershipProof st1 (hashCredential Hc cred1) 0 =
      .ok placeholderProof ∧
    placeholderProof.siblings = List.replicate 32 "0" ∧
    ProofVerifier.verifyMembershipProof Hc
      (natToString (hashCredential Hc cred1)) placeholderProof
      (MerkleTreeManager.getRoot Hc st1) = false := by
  constructor
  · decide
  constructor
  · decide
  constructor
  · decide
  · decide

/-- C3 (counterexample): supplying the empty string as `expectedRoot` —
an argument different from the proof's `merkleRoot` — does not make
verification fail: the empty string is falsy in JavaScript, so the
pinning comparison is skipped and the proof still verifies `true`. -/
theorem verifyZKProof_empty_expectedRoot_accepted :
    "" ≠ plainProof.merkleRoot ∧
    ProofVerifier.verifyZKProof Hc ZKState.initial plainProof (some "") = true := by
  decide

/-- C3 (amended): for every supplied non-empty `expectedRoot` that
differs from the proof's `merkleRoot`, `verifyZKProof` returns `false`
regardless of the rest of the proof (root pinning); an empty-string
argument is treated as absent. -/
theorem verifyZKProof_root_pinning (H : List Nat → Nat) (st : ZKState)
    (proof : ZKProof) (r : String) (hne : r ≠ "")
    (hdiff : r ≠ proof.merkleRoot) :
    ProofVerifier.verifyZKProof H st proof (some r) = false := by
  have hd : proof.merkleRoot ≠ r := fun e => hdiff e.symm
  unfold ProofVerifier.verifyZKProof
  by_cases hm : proof.merkleRoot = ""
  · simp [hm]
  · simp [hm, bne_iff_ne, hne, hd]

/-- C3 (witness for the amended theorem). -/
theorem verifyZKProof_root_pinning_witness :
    ProofVerifier.verifyZKProof Hc ZKState.initial plainProof (some "999") = false :=
  verifyZKProof_root_pinning Hc ZKState.initial plainProof "999"
    (by decide) (by decide)

set_option maxRecDepth 8000 in
/-- C4 (counterexample): contrary to the claim's "evaluated before any
proof material is produced", a run that fails the threshold check has
already produced the membership proof (and the illustrative
non-membership proof): the instrumented run on a credential with overall
score 8 against threshold 9 returns the `ThresholdNotMet` error naming
the field, with both proof-material events having occurred. -/
theorem generateZKProof_material_before_threshold :
    cred1.scores.overall < 9 ∧
    ProofGenerator.generateZKProofT Hc "T" st1 "cred-1" ["name"]
        (some [("overall", 9)]) =
      (.error (.thresholdNotMet "overall"),
       [.membershipProofGenerated, .nonMembershipProofGenerated]) := by
  constructor
  · decide
  · decide

/-- C4 (amended): for a resolvable credential in an initialized
accumulator and a score field with true value `v`, generation against
`{f: t}` succeeds exactly when `v ≥ t` (the boundary `t = v` succeeds,
inclusive), and a failing run returns the `ThresholdNotMet` error naming
the field — so no proof object is ever handed out on failure — although
the threshold is checked only after the proof material has been
computed, just before the assembled proof would be returned. -/
theorem generateZKProof_threshold_inclusive
    (H : List Nat → Nat) (now : String) (st : ZKState) (id : String)
    (fields : List String) (f : String) (t v : Rat)
    (cred : IELTSCredential) (hash : Nat) (i : Nat)
    (hc : st.credentials.lookup id = some cred)
    (hh : st.leafNodes.lookup id = some hash)
    (hi : st.credentialIndices.lookup id = some i)
    (htree : st.merkleTree.isSome = true)
    (hv : cred.scores.get f = some v) :
    (t ≤ v → ∃ p, ProofGenerator.generateZKProof H now st id fields
        (some [(f, t)]) = .ok p) ∧
    (v < t → ProofGenerator.generateZKProof H now st id fields
        (some [(f, t)]) = .error (.thresholdNotMet f)) := by
  obtain ⟨tr, htr⟩ := Option.isSome_iff_exists.mp htree
  simp only [ProofGenerator.generateZKProof, ProofGenerator.generateZKProofT,
    hc, hh, hi, MerkleTreeManager.generateMembershipProof, htr,
    Option.isNone_some, Bool.false_eq_true, if_false,
    ProofGenerator.failingThreshold, hv]
  by_cases hvt : v < t
  · constructor
    · intro hle
      exact absurd hle (not_le.mpr hvt)
    · intro _
      simp [hvt]
  · constructor
    · intro _
      simp only [if_neg hvt]
      exact ⟨_, rfl⟩
    · intro hlt
      exact absurd hlt hvt

set_option maxRecDepth 8000 in
/-- C4 (witness for the amended theorem): with true overall score 8,
threshold 8 succeeds (inclusive boundary) and threshold 9 fails naming
the field. -/
theorem generateZKProof_threshold_inclusive_witness :
    ProofGenerator.generateZKProof Hc "T" st1 "cred-1" ["name"]
        (some [("overall", 9)]) = .error (.thresholdNotMet "overall") ∧
    ProofGenerator.generateZKProof Hc "T" st1 "cred-1" ["name"]
        (some [("overall", 8)]) ≠ .error (.thresholdNotMet "overall") := by
  constructor
  · exact (generateZKProof_threshold_inclusive Hc "T" st1 "cred-1" ["name"]
      "overall" 9 8 cred1 (hashCredential Hc cred1) 0
      (by decide) (by decide) (by decide) (by decide) (by decide)).2 (by norm_num)
  · obtain ⟨p, hp⟩ := (generateZKProof_threshold_inclusive Hc "T" st1 "cred-1"
      ["name"] "overall" 8 8 cred1 (hashCredential Hc cred1) 0
      (by decide) (by decide) (by decide) (by decide) (by decide)).1 (le_refl 8)
    rw [hp]
    intro hcontra
    cases hcontra

theorem buildRevealedAttributes_keys (cred : IELTSCredential)
    (fields : List String) (k : String) :
    k ∈ jsKeys (ProofGenerator.buildRevealedAttributes cred fields) ↔
      k ∈ fields := by
  have main : ∀ (fs : List String) (acc : JsObj),
      k ∈ jsKeys (fs.foldl
        (fun acc field =>
          if strIncludes field "scores." then
            let scoreType := ((jsSplitDot field).getD 1 "")
            jsSet acc field ((cred.scores.get scoreType).map .num)
          else
            jsSet acc field (cred.getField field)) acc) ↔
        k ∈ jsKeys acc ∨ k ∈ fs := by
    intro fs
    induction fs with
    | nil => intro acc; simp
    | cons a as ih =>
        intro acc
        simp only [List.foldl_cons, List.mem_cons]
        rw [ih]
        have hstep : ∀ v w : Option AttrValue,
            k ∈ jsKeys (if strIncludes a "scores." then jsSet acc a v
              else jsSet acc a w) ↔ k ∈ jsKeys acc ∨ k = a := by
          intro v w
          by_cases hsc : strIncludes a "scores."
          · simp only [if_pos hsc]
            exact jsSet_keys_mem acc a k v
          · simp only [if_neg hsc]
            exact jsSet_keys_mem acc a k w
        rw [hstep]
        tauto
  have h0 := main fields []
  simpa [ProofGenerator.buildRevealedAttributes, jsKeys] using h0

theorem generateZKProof_ok_revealed (H : List Nat → Nat) (now : String)
    (st : ZKState) (id : String) (fields : List String)
    (ms : Option (List (String × Rat))) (p : ZKProof)
    (hp : ProofGenerator.generateZKProof H now st id fields ms = .ok p) :
    ∃ cred, st.credentials.lookup id = some cred ∧
      p.revealedAttributes = ProofGenerator.buildRevealedAttributes cred fields := by
  unfold ProofGenerator.generateZKProof ProofGenerator.generateZKProofT at hp
  repeat' split at hp
  all_goals simp only [Except.ok.injEq] at hp
  all_goals first
    | exact absurd hp (by simp)
    | exact ⟨_, by assumption, by rw [← hp]⟩

/-- C5: for every stored credential and requested field list, the
revealed-attribute mapping of a successfully generated disclosure proof
has exactly the requested field set as its key set — each requested
field's key is created (even when the looked-up value is `undefined`)
and no unrequested attribute ever appears. -/
theorem generateZKProof_reveals_exactly_requested (H : List Nat → Nat)
    (now : String) (st : ZKState) (id : String) (fields : List String)
    (ms : Option (List (String × Rat))) (p : ZKProof)
    (hp : ProofGenerator.generateZKProof H now st id fields ms = .ok p)
    (k : String) :
    k ∈ jsKeys p.revealedAttributes ↔ k ∈ fields := by
  obtain ⟨cred, -, hrev⟩ := generateZKProof_ok_revealed H now st id fields ms p hp
  rw [hrev]
  exact buildRevealedAttributes_keys cred fields k

set_option maxRecDepth 8000 in
/-- C5 (witness): the proof generated for `cred1` revealing `name` and
`scores.overall` carries exactly those keys — `name` is in the key set,
an unrequested attribute such as `dateOfBirth` is not. -/
theorem generateZKProof_reveals_exactly_requested_witness :
    ProofGenerator.generateZKProof Hc "T" st1 "cred-1"
        ["name", "scores.overall"] none = .ok proof1 ∧
    ("name" ∈ jsKeys proof1.revealedAttributes ↔
      "name" ∈ ["name", "scores.overall"]) ∧
    ("dateOfBirth" ∈ jsKeys proof1.revealedAttributes ↔
      "dateOfBirth" ∈ ["name", "scores.overall"]) :=
  ⟨by decide,
   generateZKProof_reveals_exactly_requested Hc "T" st1 "cred-1"
     ["name", "scores.overall"] none proof1 (by decide) "name",
   generateZKProof_reveals_exactly_requested Hc "T" st1 "cred-1"
     ["name", "scores.overall"] none proof1 (by decide) "dateOfBirth"⟩

/-- C6: `revokeCredential` returns `false` without mutating any entry
when the id is unknown or the acting issuer does not match the recorded
one; otherwise it returns `true`, the targeted entry differs only in its
revoked flag (now `true`), and every other entry is unchanged. -/
theorem revokeCredential_spec (entries : RegistryState) (id issuer : String) :
    ((entries.lookup id = none ∨
        ∃ e, entries.lookup id = some e ∧ e.issuer ≠ issuer) →
      Registry.revokeCredential entries id issuer = (false, entries)) ∧
    (∀ e, entries.lookup id = some e → e.issuer = issuer →
      (Registry.revokeCredential entries id issuer).1 = true ∧
      (Registry.revokeCredential entries id issuer).2.lookup id =
        some { e with revoked := true } ∧
      ∀ k, k ≠ id →
        (Registry.revokeCredential entries id issuer).2.lookup k =
          entries.lookup k) := by
  constructor
  · rintro (hnone | ⟨e, he, hne⟩)
    · simp [Registry.revokeCredential, hnone]
    · simp [Registry.revokeCredential, he, hne]
  · intro e he hiss
    simp only [Registry.revokeCredential, he]
    rw [if_neg (by simp [hiss])]
    exact ⟨rfl, listSet_lookup_self entries id _,
      fun k hk => listSet_lookup_other entries id k _ hk⟩

/-- C6 (witness): revoking `cred-1` as `mallory` fails and leaves the
registry untouched; revoking as the recorded issuer succeeds and sets
exactly the revoked flag. -/
theorem revokeCredential_spec_witness :
    Registry.revokeCredential reg1 "cred-1" "mallory" = (false, reg1) ∧
    (Registry.revokeCredential reg1 "cred-1" "issuer-1").1 = true ∧
    (Registry.revokeCredential reg1 "cred-1" "issuer-1").2.lookup "cred-1" =
      some { entry1 with revoked := true } :=
  ⟨(revokeCredential_spec reg1 "cred-1" "mallory").1
      (Or.inr ⟨entry1, by decide, by decide⟩),
   ((revokeCredential_spec reg1 "cred-1" "issuer-1").2 entry1
      (by decide) (by decide)).1,
   ((revokeCredential_spec reg1 "cred-1" "issuer-1").2 entry1
      (by decide) (by decide)).2.1⟩

/-- C7: `verifyPresentation` always reports `isValid` equal to the
conjunction of the five per-check details returned alongside it; with no
registry attached `notRevoked` is permissively `true`; and after a
successful authorized revocation of id `cid`, a registry-aware verifier
reports `notRevoked = false` for every presentation whose credential
references `cid`. -/
theorem verifyPresentation_spec (H : List Nat → Nat)
    (bbsVerify : Option IELTSCredential → Option BBSProof → Bool)
    (trusted : List String) (reg : Option RegistryState) (st : ZKState)
    (pres : VerifiablePresentation) (req : Option PresentationRequest)
    (r1 r2 : RegistryState) (cid issuer : String) :
    ((Verifier.verifyPresentation H bbsVerify trusted reg st pres req).isValid =
      ((Verifier.verifyPresentation H bbsVerify trusted reg st pres
          req).details.credentialValid &&
       (Verifier.verifyPresentation H bbsVerify trusted reg st pres
          req).details.issuerTrusted &&
       (Verifier.verifyPresentation H bbsVerify trusted reg st pres
          req).details.zkProofValid &&
       (Verifier.verifyPresentation H bbsVerify trusted reg st pres
          req).details.requirementsMet &&
       (Verifier.verifyPresentation H bbsVerify trusted reg st pres
          req).details.notRevoked)) ∧
    ((Verifier.verifyPresentation H bbsVerify trusted none st pres
        req).details.notRevoked = true) ∧
    (Registry.revokeCredential r1 cid issuer = (true, r2) →
     pres.verifiableCredential.head?.map VerifiableCredential.id = some cid →
     (Verifier.verifyPresentation H bbsVerify trusted (some r2) st pres
        req).details.notRevoked = false) := by
  refine ⟨?_, ?_, ?_⟩
  · cases hvc : pres.verifiableCredential with
    | nil => simp [Verifier.verifyPresentation, hvc]
    | cons c rest => simp [Verifier.verifyPresentation, hvc]
  · cases hvc : pres.verifiableCredential with
    | nil => simp [Verifier.verifyPresentation, hvc]
    | cons c rest => simp [Verifier.verifyPresentation, hvc]
  · intro hrev hhead
    unfold Registry.revokeCredential at hrev
    split at hrev
    · simp at hrev
    · rename_i e hlk
      split at hrev
      · simp at hrev
      · have hr2 : r2 = listSet r1 cid { e with revoked := true } := by
          have h2 := congrArg Prod.snd hrev
          simpa using h2.symm
        cases hvc : pres.verifiableCredential with
        | nil => rw [hvc] at hhead; simp at hhead
        | cons c rest =>
            rw [hvc] at hhead
            simp only [List.head?_cons, Option.map_some] at hhead
            have hid : c.id = cid := by
              simpa using hhead
            simp [Verifier.verifyPresentation, hvc, hr2,
              Registry.isCredentialRevoked, hid,
              listSet_lookup_self r1 cid]

/-- C7 (witness): after `issuer-1` successfully revokes `cred-1`, the
registry-aware verifier reports `notRevoked = false` for `pres1`, while
a registry-free verifier reports `notRevoked = true`; `isValid` equals
the conjunction of the reported details. -/
theorem verifyPresentation_spec_witness :
    ((Verifier.verifyPresentation Hc bbsAccept ["issuer-1"] none
        ZKState.initial pres1 none).details.notRevoked = true) ∧
    (Registry.revokeCredential reg1 "cred-1" "issuer-1" =
      (true, [("cred-1", { entry1 with revoked := true })])) ∧
    ((Verifier.verifyPresentation Hc bbsAccept ["issuer-1"]
        (some [("cred-1", { entry1 with revoked := true })])
        ZKState.initial pres1 none).details.notRevoked = false) ∧
    ((Verifier.verifyPresentation Hc bbsAccept ["issuer-1"] none
        ZKState.initial pres1 none).isValid =
      ((Verifier.verifyPresentation Hc bbsAccept ["issuer-1"] none
          ZKState.initial pres1 none).details.credentialValid &&
       (Verifier.verifyPresentation Hc bbsAccept ["issuer-1"] none
          ZKState.initial pres1 none).details.issuerTrusted &&
       (Verifier.verifyPresentation Hc bbsAccept ["issuer-1"] none
          ZKState.initial pres1 none).details.zkProofValid &&
       (Verifier.verifyPresentation Hc bbsAccept ["issuer-1"] none
          ZKState.initial pres1 none).details.requirementsMet &&
       (Verifier.verifyPresentation Hc bbsAccept ["issuer-1"] none
          ZKState.initial pres1 none).details.notRevoked)) :=
  ⟨(verifyPresentation_spec Hc bbsAccept ["issuer-1"] none ZKState.initial
      pres1 none reg1 reg1 "cred-1" "issuer-1").2.1,
   by decide,
   (verifyPresentation_spec Hc bbsAccept ["issuer-1"] none ZKState.initial
      pres1 none reg1 [("cred-1", { entry1 with revoked := true })]
      "cred-1" "issuer-1").2.2 (by decide) (by decide),
   (verifyPresentation_spec Hc bbsAccept ["issuer-1"] none ZKState.initial
      pres1 none reg1 reg1 "cred-1" "issuer-1").1⟩

/-- C8: `storeCredential` fails with the untrusted-issuer error unless
the issuer is trusted, then with the invalid-signature error unless the
signature collaborator accepts, then with the missing-fields error if
`credentialSubject` or `proof` is absent; only a successful call commits
the subject into the holder's own accumulator and retains the credential
in its store (the holder state is a pure output, so no failing call adds
anything). -/
theorem storeCredential_spec (H : List Nat → Nat)
    (bbsVerify : Option IELTSCredential → Option BBSProof → Bool)
    (h : HolderState) (vc : VerifiableCredential) :
    (¬ h.trustedIssuers.contains vc.issuer = true →
      Holder.storeCredential H bbsVerify h vc = .error .untrustedIssuer) ∧
    (h.trustedIssuers.contains vc.issuer = true →
     bbsVerify vc.credentialSubject vc.proof = false →
      Holder.storeCredential H bbsVerify h vc = .error .invalidSignature) ∧
    (h.trustedIssuers.contains vc.issuer = true →
     bbsVerify vc.credentialSubject vc.proof = true →
     vc.credentialSubject = none ∨ vc.proof = none →
      Holder.storeCredential H bbsVerify h vc = .error .missingFields) ∧
    (∀ h', Holder.storeCredential H bbsVerify h vc = .ok h' →
      ∃ subject zk' idx, vc.credentialSubject = some subject ∧
        MerkleTreeManager.addCredential H h.zk subject = .ok (zk', idx) ∧
        h' = { h with zk := zk', credentials := listSet h.credentials vc.id vc }) := by
  refine ⟨?_, ?_, ?_, ?_⟩
  · intro hnt
    have hnm : vc.issuer ∉ h.trustedIssuers := by simpa using hnt
    simp [Holder.storeCredential, hnm]
  · intro ht hbv
    have htm : vc.issuer ∈ h.trustedIssuers := by simpa using ht
    simp [Holder.storeCredential, htm, hbv]
  · intro ht hbv hmiss
    have htm : vc.issuer ∈ h.trustedIssuers := by simpa using ht
    rcases hcs : vc.credentialSubject with _ | subj
    · rcases hpf : vc.proof with _ | prf <;> rw [hcs, hpf] at hbv <;>
        simp [Holder.storeCredential, htm, hbv, hcs, hpf]
    · rcases hpf : vc.proof with _ | prf
      · rw [hcs, hpf] at hbv
        simp [Holder.storeCredential, htm, hbv, hcs, hpf]
      · exfalso
        rcases hmiss with hm | hm
        · rw [hcs] at hm; cases hm
        · rw [hpf] at hm; cases hm
  · intro h' hok
    unfold Holder.storeCredential at hok
    repeat' split at hok
    all_goals first
      | (simp only [Except.ok.injEq] at hok
         exact ⟨_, _, _, by assumption, by assumption, hok.symm⟩)
      | exact absurd hok (by simp)

set_option maxRecDepth 8000 in
/-- C8 (witness): a holder trusting `issuer-1` successfully stores
`vc1`, committing it to its accumulator and retaining it; with an empty
trust set the same call fails with the untrusted-issuer error; with a
rejecting signature collaborator it fails with the invalid-signature
error. -/
theorem storeCredential_spec_witness :
    Holder.storeCredential Hc (fun _ _ => true)
      { holder1 with trustedIssuers := [] } vc1 = .error .untrustedIssuer ∧
    Holder.storeCredential Hc (fun _ _ => false) holder1 vc1 =
      .error .invalidSignature ∧
    Holder.storeCredential Hc (fun _ _ => true) holder1 vc1 =
      .ok { holder1 with zk := st1, credentials := listSet holder1.credentials vc1.id vc1 } :=
  ⟨(storeCredential_spec Hc (fun _ _ => true)
      { holder1 with trustedIssuers := [] } vc1).1 (by decide),
   (storeCredential_spec Hc (fun _ _ => false) holder1 vc1).2.1
      (by decide) (by decide),
   by decide⟩

theorem leafNodes_roundtrip (l : List (String × Nat)) :
    StateManager.parseLeafNodes (l.map (fun kv => (kv.1, natToString kv.2))) =
      some l := by
  induction l with
  | nil => simp [StateManager.parseLeafNodes]
  | cons kv rest ih =>
      obtain ⟨k, v⟩ := kv
      simp [StateManager.parseLeafNodes, strToNatJs_natToString v, ih]

/-- C9: saving an initialized accumulator state and reloading the saved
artifacts restores the manager exactly — the same tree (hence the same
root), and the credential, leaf-hash and index side tables are restored
to their prior contents, whatever state the loading manager held
before. -/
theorem treeState_roundtrip (st : ZKState) (t : IndexedMerkleTree)
    (saved : SavedState) (st' : ZKState)
    (h1 : st.merkleTree = some t)
    (h2 : StateManager.saveTreeState st = .ok saved) :
    StateManager.loadTreeState saved st' = .ok st := by
  unfold StateManager.saveTreeState at h2
  rw [h1] at h2
  simp only [Except.ok.injEq] at h2
  unfold StateManager.loadTreeState
  rw [← h2]
  simp only [leafNodes_roundtrip]
  cases st with
  | mk mt c l i =>
      simp only at h1
      rw [h1]

/-- C9 (witness): the snapshot of the one-credential state `st1` reloads
into a manager holding no prior state and restores `st1` exactly. -/
theorem treeState_roundtrip_witness :
    StateManager.saveTreeState st1 = .ok saved1 ∧
    StateManager.loadTreeState saved1 ZKState.initial = .ok st1 :=
  ⟨by decide,
   treeState_roundtrip st1 st1Tree saved1 ZKState.initial (by decide) (by decide)⟩

/-- C10 (counterexample): the claim's universal conclusion fails — a
revealed mapping containing every required field but lacking the
thresholded `scores.reading` does not always make `requirementsMet`
true, because the out-of-band check on a revealed `scores.overall`
(here 10) can still reject. -/
theorem checkRequirements_absent_score_counterexample :
    jsGet revealedX "scores.reading" = none ∧
    (jsGet revealedX "name").isSome = true ∧
    Verifier.checkRequirements revealedX (some reqX) = false := by
  decide

/-- C10 (amended): a minimum-score requirement whose normalized score
field is absent from the revealed mapping is treated as satisfied (its
comparison never fires), and `requirementsMet` is `true` whenever
additionally every required field is present, no revealed thresholded
score is below its threshold, and a truthy revealed `scores.overall`
lies within the 0–9 band — so an absent thresholded field is never
enforced against any value. -/
theorem checkRequirements_skips_absent_scores (revealed : JsObj)
    (req : PresentationRequest) :
    (∀ f t, jsGet revealed
        (if strStartsWith f "scores." then f else "scores." ++ f) = none →
      Verifier.scoreViolation revealed f t = false) ∧
    ((∀ f ∈ req.requiredFields, (jsGet revealed f).isSome = true) →
     (∀ ms, req.minimumScores = some ms →
        ∀ kv ∈ ms, Verifier.scoreViolation revealed kv.1 kv.2 = false) →
     (jsTruthy (jsGet revealed "scores.overall") = false ∨
      (∀ v, jsGet revealed "scores.overall" = some v →
        jsLtNum v 0 = false ∧ jsGtNum v 9 = false)) →
     Verifier.checkRequirements revealed (some req) = true) := by
  constructor
  · intro f t hnone
    simp only [Verifier.scoreViolation, hnone]
  · intro hreq hms hov
    have h1 : ¬((req.requiredFields.any
        fun field => (jsGet revealed field).isNone) = true) := by
      have : (req.requiredFields.any
          fun field => (jsGet revealed field).isNone) = false := by
        rw [List.any_eq_false]
        intro f hf
        have hs := hreq f hf
        cases hget : jsGet revealed f with
        | none => rw [hget] at hs; simp at hs
        | some v => simp
      simp [this]
    simp only [Verifier.checkRequirements]
    rw [if_neg h1]
    have overallCase :
        (if (jsTruthy (jsGet revealed "scores.overall") &&
            match jsGet revealed "scores.overall" with
            | some v => jsLtNum v 0 || jsGtNum v 9
            | none => false) = true then false else true) = true := by
      cases hget : jsGet revealed "scores.overall" with
      | none => simp
      | some v =>
          rcases hov with hf | hvv
          · rw [hget] at hf
            simp [hf]
          · obtain ⟨hl, hg⟩ := hvv v hget
            simp [hl, hg]
    cases hm : req.minimumScores with
    | none =>
        rw [if_neg (by simp)]
        exact overallCase
    | some ms =>
        have h2 : (ms.any
            fun kv => Verifier.scoreViolation revealed kv.1 kv.2) = false := by
          rw [List.any_eq_false]
          intro kv hkv
          simp [hms ms hm kv hkv]
        rw [if_neg (by simp [h2])]
        exact overallCase

/-- C10 (witness for the amended theorem): against a request demanding
`name` and a minimum reading score, a mapping revealing only `name`
raises no score violation for the absent `scores.reading` and satisfies
the requirements check. -/
theorem checkRequirements_skips_absent_scores_witness :
    Verifier.scoreViolation revealedY "reading" 6 = false ∧
    Verifier.checkRequirements revealedY (some reqX) = true :=
  ⟨(checkRequirements_skips_absent_scores revealedY reqX).1 "reading" 6
      (by decide),
   (checkRequirements_skips_absent_scores revealedY reqX).2
      (by decide)
      (by
        intro ms hm
        injection hm with h
        rw [← h]
        decide)
      (Or.inl (by decide))⟩

end VCSys
